import Mathlib

/-!
Shallow embedding of the core data structures and algorithms of
`simple_term_menu.py` (the `TerminalMenu` class and its helpers), together
with theorems settling the specification claims about them.

Python integers are modelled as `Int`, Python strings as Lean `String`
(lists of characters where convenient), `None`-able values as `Option`,
and exceptions as `Except`/`Option` results.  External collaborators
(the `tput` terminfo query, the regex compiler of the `re` module) are
modelled as function parameters, so every theorem quantifies over their
possible behaviours.
-/

namespace SimpleTermMenu

/-- `MIN_VISIBLE_MENU_ENTRIES_COUNT` from the source. -/
def MIN_VISIBLE_MENU_ENTRIES_COUNT : Int := 3

/-- State of `TerminalMenu.Viewport`: the `_viewport` pair `(lower, upper)`
together with the cached `_num_lines` and the construction-time counts. -/
structure Viewport where
  numMenuEntries : Int
  titleLinesCount : Int
  previewLinesCount : Int
  searchLinesCount : Int
  numLines : Int
  lower : Int
  upper : Int
  deriving Repr, DecidableEq

/-- `Viewport._calculate_num_lines`: terminal height minus the title,
preview and search line budgets.  The terminal height (obtained in the
source via `TerminalMenu._num_lines()`) is passed explicitly. -/
def calculateNumLines (termHeight : Int) (v : Viewport) : Int :=
  termHeight - v.titleLinesCount - v.previewLinesCount - v.searchLinesCount

/-- The `Viewport.preview_lines_count` property setter:
`min(value if value >= 3 else 0, terminal_height - title_lines - MIN_VISIBLE_MENU_ENTRIES_COUNT)`. -/
def setPreviewLinesCount (termHeight titleLinesCount value : Int) : Int :=
  min (if value ≥ 3 then value else 0)
    (termHeight - titleLinesCount - MIN_VISIBLE_MENU_ENTRIES_COUNT)

/-- `Viewport.update_terminal_size`: recompute `num_lines`; when it changed,
first let the upper index grow or shrink (clamped to the entry count), then
set the lower index to `max(0, upper_index - num_lines)`. -/
def updateTerminalSize (termHeight : Int) (v : Viewport) : Viewport :=
  let numLines := calculateNumLines termHeight v
  if numLines ≠ v.numLines then
    let upperIndex := min numLines v.numMenuEntries - 1
    let lowerIndex := max 0 (upperIndex - numLines)
    { v with lower := lowerIndex, upper := upperIndex, numLines := numLines }
  else
    v

/-- `Viewport.keep_visible`: `None` cursors are treated like position `0`;
optionally refresh the terminal size first; if the cursor is already inside
`[lower, upper]` do nothing, otherwise shift both bounds by the signed
distance from the cursor to the nearest bound. -/
def keepVisible (termHeight : Int) (cursorPosition : Option Int)
    (refreshTerminalSize : Bool) (v : Viewport) : Viewport :=
  let c := cursorPosition.getD 0
  let v := if refreshTerminalSize then updateTerminalSize termHeight v else v
  if v.lower ≤ c ∧ c ≤ v.upper then
    v
  else
    let scrollNum := if c < v.lower then c - v.lower else c - v.upper
    { v with lower := v.lower + scrollNum, upper := v.upper + scrollNum }

/-- `Viewport.__init__`: set the preview line budget through its setter,
compute `num_lines`, start with the window `(0, min(entries, num_lines) - 1)`
and call `keep_visible(None, refresh_terminal_size=False)`. -/
def viewportInit (termHeight numMenuEntries titleLinesCount previewArg searchArg : Int) :
    Viewport :=
  let preview := setPreviewLinesCount termHeight titleLinesCount previewArg
  let v0 : Viewport :=
    { numMenuEntries := numMenuEntries
      titleLinesCount := titleLinesCount
      previewLinesCount := preview
      searchLinesCount := searchArg
      numLines := termHeight - titleLinesCount - preview - searchArg
      lower := 0
      upper := min numMenuEntries (termHeight - titleLinesCount - preview - searchArg) - 1 }
  keepVisible termHeight none false v0

/-- `Viewport.size`: `upper - lower + 1`. -/
def Viewport.size (v : Viewport) : Int := v.upper - v.lower + 1

theorem updateTerminalSize_of_unchanged (termHeight : Int) (v : Viewport)
    (hterm : calculateNumLines termHeight v = v.numLines) :
    updateTerminalSize termHeight v = v := by
  unfold updateTerminalSize
  simp [hterm]

theorem keepVisible_eq (termHeight c : Int) (v : Viewport)
    (hterm : calculateNumLines termHeight v = v.numLines) :
    keepVisible termHeight (some c) true v =
      if v.lower ≤ c ∧ c ≤ v.upper then v
      else { v with
        lower := v.lower + (if c < v.lower then c - v.lower else c - v.upper),
        upper := v.upper + (if c < v.lower then c - v.lower else c - v.upper) } := by
  unfold keepVisible
  rw [updateTerminalSize_of_unchanged _ _ hterm]
  rfl

theorem keepVisible_bounds (termHeight c : Int) (v : Viewport)
    (hterm : calculateNumLines termHeight v = v.numLines)
    (hwin : v.lower ≤ v.upper) :
    (keepVisible termHeight (some c) true v).lower ≤ c ∧
      c ≤ (keepVisible termHeight (some c) true v).upper := by
  rw [keepVisible_eq termHeight c v hterm]
  by_cases h : v.lower ≤ c ∧ c ≤ v.upper
  · rw [if_pos h]
    exact h
  · rw [if_neg h]
    show v.lower + _ ≤ c ∧ c ≤ v.upper + _
    split <;> omega

/-- C1: for every viewport with a well-formed window (`lower ≤ upper`, as holds
for every viewport built over a non-empty entry list) and every cursor position
`c`, `keep_visible(c)` with the terminal size unchanged establishes
`lower ≤ c ≤ upper`, preserves `upper - lower`, is a no-op when `c` was already
inside the window, and otherwise shifts both bounds by exactly the signed
distance from `c` to the nearest bound. -/
theorem keepVisible_spec (termHeight : Int) (v : Viewport) (c : Int)
    (hwin : v.lower ≤ v.upper)
    (hterm : calculateNumLines termHeight v = v.numLines) :
    ((keepVisible termHeight (some c) true v).lower ≤ c ∧
      c ≤ (keepVisible termHeight (some c) true v).upper) ∧
    (keepVisible termHeight (some c) true v).upper -
        (keepVisible termHeight (some c) true v).lower = v.upper - v.lower ∧
    (v.lower ≤ c ∧ c ≤ v.upper → keepVisible termHeight (some c) true v = v) ∧
    (¬(v.lower ≤ c ∧ c ≤ v.upper) →
      (keepVisible termHeight (some c) true v).lower =
          v.lower + (if c < v.lower then c - v.lower else c - v.upper) ∧
      (keepVisible termHeight (some c) true v).upper =
          v.upper + (if c < v.lower then c - v.lower else c - v.upper)) := by
  rw [keepVisible_eq termHeight c v hterm]
  by_cases h : v.lower ≤ c ∧ c ≤ v.upper
  · rw [if_pos h]
    exact ⟨⟨h.1, h.2⟩, by omega, fun _ => rfl, fun hc => absurd h hc⟩
  · rw [if_neg h]
    refine ⟨?_, ?_, fun hc => absurd hc h, fun _ => ⟨rfl, rfl⟩⟩
    · show v.lower + _ ≤ c ∧ c ≤ v.upper + _
      split <;> omega
    · show v.upper + _ - (v.lower + _) = _
      split <;> omega

theorem keepVisible_spec_witness :
    ((keepVisible 10 (some 15) true ⟨20, 0, 0, 0, 10, 0, 9⟩).lower ≤ 15 ∧
      15 ≤ (keepVisible 10 (some 15) true ⟨20, 0, 0, 0, 10, 0, 9⟩).upper) ∧
    (keepVisible 10 (some 15) true ⟨20, 0, 0, 0, 10, 0, 9⟩).upper -
        (keepVisible 10 (some 15) true ⟨20, 0, 0, 0, 10, 0, 9⟩).lower = 9 - 0 ∧
    ((0 : Int) ≤ 15 ∧ (15 : Int) ≤ 9 →
      keepVisible 10 (some 15) true ⟨20, 0, 0, 0, 10, 0, 9⟩ = ⟨20, 0, 0, 0, 10, 0, 9⟩) ∧
    (¬((0 : Int) ≤ 15 ∧ (15 : Int) ≤ 9) →
      (keepVisible 10 (some 15) true ⟨20, 0, 0, 0, 10, 0, 9⟩).lower =
          0 + (if (15 : Int) < 0 then 15 - 0 else 15 - 9) ∧
      (keepVisible 10 (some 15) true ⟨20, 0, 0, 0, 10, 0, 9⟩).upper =
          9 + (if (15 : Int) < 0 then 15 - 0 else 15 - 9)) :=
  keepVisible_spec 10 ⟨20, 0, 0, 0, 10, 0, 9⟩ 15 (by decide) (by decide)

/-- C4: when the recomputed line budget differs from the cached one,
`update_terminal_size` first sets the upper bound to the new capacity clamped
to the entry count (minus one) and then the lower bound to
`max(0, new_upper - capacity)`, discarding the previous scroll offset; and a
resize to a smaller (but positive) capacity than the current window size,
followed by `keep_visible` on any cursor position, leaves the cursor inside
`[lower, upper]`. -/
theorem updateTerminalSize_resize_spec (termHeight : Int) (v : Viewport) (c : Int)
    (hchanged : calculateNumLines termHeight v ≠ v.numLines)
    (hcap : 1 ≤ calculateNumLines termHeight v)
    (hentries : 1 ≤ v.numMenuEntries)
    (hsmaller : calculateNumLines termHeight v < v.size)
    (hc : 0 ≤ c) :
    (updateTerminalSize termHeight v).upper =
        min (calculateNumLines termHeight v) v.numMenuEntries - 1 ∧
    (updateTerminalSize termHeight v).lower =
        max 0 ((updateTerminalSize termHeight v).upper - calculateNumLines termHeight v) ∧
    (keepVisible termHeight (some c) true (updateTerminalSize termHeight v)).lower ≤ c ∧
    c ≤ (keepVisible termHeight (some c) true (updateTerminalSize termHeight v)).upper := by
  have hv' : updateTerminalSize termHeight v =
      { v with
        lower := max 0 (min (calculateNumLines termHeight v) v.numMenuEntries - 1 -
          calculateNumLines termHeight v)
        upper := min (calculateNumLines termHeight v) v.numMenuEntries - 1
        numLines := calculateNumLines termHeight v } := by
    unfold updateTerminalSize
    simp [hchanged]
  have hterm' : calculateNumLines termHeight (updateTerminalSize termHeight v) =
      (updateTerminalSize termHeight v).numLines := by
    rw [hv']
    rfl
  have hwin' : (updateTerminalSize termHeight v).lower ≤
      (updateTerminalSize termHeight v).upper := by
    rw [hv']
    show max 0 (min (calculateNumLines termHeight v) v.numMenuEntries - 1 -
        calculateNumLines termHeight v) ≤
      min (calculateNumLines termHeight v) v.numMenuEntries - 1
    omega
  refine ⟨by rw [hv'], by rw [hv'], ?_, ?_⟩
  · exact (keepVisible_bounds termHeight c _ hterm' hwin').1
  · exact (keepVisible_bounds termHeight c _ hterm' hwin').2

theorem updateTerminalSize_resize_spec_witness :
    (updateTerminalSize 5 ⟨20, 0, 0, 0, 10, 3, 12⟩).upper = min 5 20 - 1 ∧
    (updateTerminalSize 5 ⟨20, 0, 0, 0, 10, 3, 12⟩).lower =
        max 0 ((updateTerminalSize 5 ⟨20, 0, 0, 0, 10, 3, 12⟩).upper - 5) ∧
    (keepVisible 5 (some 12) true (updateTerminalSize 5 ⟨20, 0, 0, 0, 10, 3, 12⟩)).lower ≤ 12 ∧
    12 ≤ (keepVisible 5 (some 12) true (updateTerminalSize 5 ⟨20, 0, 0, 0, 10, 3, 12⟩)).upper :=
  updateTerminalSize_resize_spec 5 ⟨20, 0, 0, 0, 10, 3, 12⟩ 12
    (by decide) (by decide) (by decide) (by decide) (by decide)

/-- C5 counterexample: with terminal height 3 and one title line, a requested
preview size of 2 (below 3) yields `-1`, not `0`: the "collapse to 0" branch is
itself clamped by `terminal_height - title_lines - 3`, which may be negative. -/
theorem setPreviewLinesCount_neg_counterexample :
    setPreviewLinesCount 3 1 2 = -1 ∧ ¬ setPreviewLinesCount 3 1 2 = 0 := by
  decide

/-- C5 (amended): the preview line count is
`min((v if v ≥ 3 else 0), H - T - 3)`; a request below 3 yields
`min(0, H - T - 3)`, which is exactly 0 whenever `H - T - 3 ≥ 0` (but negative
when the terminal is shorter than the title block plus three lines), and a
request of at least 3 yields `min(v, H - T - 3)`. -/
theorem setPreviewLinesCount_spec (termHeight titleLines value : Int) :
    (value < 3 → setPreviewLinesCount termHeight titleLines value =
      min 0 (termHeight - titleLines - 3)) ∧
    (value < 3 → 0 ≤ termHeight - titleLines - 3 →
      setPreviewLinesCount termHeight titleLines value = 0) ∧
    (3 ≤ value → setPreviewLinesCount termHeight titleLines value =
      min value (termHeight - titleLines - 3)) := by
  unfold setPreviewLinesCount MIN_VISIBLE_MENU_ENTRIES_COUNT
  refine ⟨fun h => ?_, fun h h2 => ?_, fun h => ?_⟩
  · rw [if_neg (by omega)]
  · rw [if_neg (by omega)]
    exact min_eq_left h2
  · rw [if_pos (by omega)]

theorem setPreviewLinesCount_spec_witness :
    ((2 : Int) < 3 → setPreviewLinesCount 10 1 2 = min 0 (10 - 1 - 3)) ∧
    ((2 : Int) < 3 → (0 : Int) ≤ 10 - 1 - 3 → setPreviewLinesCount 10 1 2 = 0) ∧
    ((3 : Int) ≤ 2 → setPreviewLinesCount 10 1 2 = min 2 (10 - 1 - 3)) :=
  setPreviewLinesCount_spec 10 1 2

/-! ### `TerminalMenu.Search`

The Python `re` module is external: it is modelled by a parameter
`compile : String → Option α` (compilation succeeds or raises `re.error`)
and a parameter `searchFn : α → String → Option (Nat × Nat)` (the
`Pattern.search` call, returning the span of the first match or `None`). -/

/-- The `while search_text and self._search_regex is None` loop of the
`search_text` property setter: try the full string, then repeatedly drop the
last character, until compilation succeeds or the string is empty. -/
def tryCompile {α : Type} (compile : String → Option α) (l : List Char) : Option α :=
  if h : l = [] then
    none
  else
    match compile (String.mk l) with
    | some r => some r
    | none => tryCompile compile l.dropLast
termination_by l.length
decreasing_by
  simp only [List.length_dropLast]
  have := List.length_pos.mpr h
  omega

/-- State of `TerminalMenu.Search`: the raw text, the compiled regex and the
cached matches `(entry_index, (match_start, match_end))`. -/
structure SearchState (α : Type) where
  showSearchHint : Bool
  searchText : Option String
  searchRegex : Option α
  matchesList : List (Nat × Nat × Nat)
  deriving Repr, DecidableEq

/-- `Search._update_matches`: no regex means no matches; otherwise collect
`(i, match)` for every entry whose display text has a match. -/
def updateMatches {α : Type} (searchFn : α → String → Option (Nat × Nat))
    (menuEntries : List String) (searchRegex : Option α) : List (Nat × Nat × Nat) :=
  match searchRegex with
  | none => []
  | some r => menuEntries.enum.filterMap fun p => (searchFn r p.2).map fun span => (p.1, span)

/-- The `search_text` property setter (without the change callback, which is
modelled at the menu level where it is registered). -/
def setSearchText {α : Type} (compile : String → Option α)
    (searchFn : α → String → Option (Nat × Nat)) (menuEntries : List String)
    (text : Option String) (s : SearchState α) : SearchState α :=
  let regex := match text with
    | none => none
    | some t => tryCompile compile t.data
  { s with searchText := text, searchRegex := regex,
           matchesList := updateMatches searchFn menuEntries regex }

/-- `Search.occupied_lines_count`: 0 when search is inactive and no hint is
shown, else 1. -/
def occupiedLinesCount {α : Type} (s : SearchState α) : Int :=
  if s.searchText = none ∧ ¬s.showSearchHint then 0 else 1

/-- The `_displayed_index_to_menu_index` computation of `View.update_view`:
with an active, non-empty search the match indices, otherwise all entries. -/
def displayedIndexToMenuIndex {α : Type} (numMenuEntries : Nat) (s : SearchState α) :
    List Nat :=
  if s.searchText ≠ none ∧ s.searchText ≠ some "" then s.matchesList.map (·.1)
  else List.range numMenuEntries

theorem tryCompile_eq_none {α : Type} (compile : String → Option α) (l : List Char)
    (h : ∀ k, 0 < k → k ≤ l.length → compile (String.mk (l.take k)) = none) :
    tryCompile compile l = none := by
  induction l using List.reverseRecOn with
  | nil => rw [tryCompile]; rfl
  | append_singleton xs x ih =>
    rw [tryCompile, dif_neg (by simp)]
    have hfull := h (xs.length + 1) (by omega) (by simp)
    rw [List.take_of_length_le (by simp)] at hfull
    rw [hfull, List.dropLast_concat]
    exact ih fun k hk hkl => by
      have := h k hk (by simp; omega)
      rwa [List.take_append_of_le_length hkl] at this

theorem tryCompile_eq_some {α : Type} (compile : String → Option α) (l : List Char)
    (k : Nat) (r : α) (hk : 0 < k) (hkl : k ≤ l.length)
    (hsucc : compile (String.mk (l.take k)) = some r)
    (hfail : ∀ j, k < j → j ≤ l.length → compile (String.mk (l.take j)) = none) :
    tryCompile compile l = some r := by
  induction l using List.reverseRecOn with
  | nil => simp at hkl; omega
  | append_singleton xs x ih =>
    rw [tryCompile, dif_neg (by simp)]
    by_cases hlen : k = xs.length + 1
    · have : (xs ++ [x]).take k = xs ++ [x] := List.take_of_length_le (by simp; omega)
      rw [this] at hsucc
      rw [hsucc]
    · have hkxs : k ≤ xs.length := by simp at hkl; omega
      have hfull := hfail (xs.length + 1) (by omega) (by simp)
      rw [List.take_of_length_le (by simp)] at hfull
      rw [hfull, List.dropLast_concat]
      refine ih hkxs ?_ ?_
      · rwa [List.take_append_of_le_length hkxs] at hsucc
      · intro j hj hjl
        have := hfail j hj (by simp; omega)
        rwa [List.take_append_of_le_length hjl] at this

/-- C2: setting the search text tries the text and then progressively shorter
prefixes: if some prefix of `t'` compiles while every longer prefix fails,
the compiled pattern is that prefix's; if no non-empty prefix of `t` compiles,
the pattern is `None` and the matches list is empty; the empty search string
always yields this trivial state and is displayed as matching everything (all
entry indices are displayed). -/
theorem setSearchText_spec {α : Type} (compile : String → Option α)
    (searchFn : α → String → Option (Nat × Nat)) (menuEntries : List String)
    (t t' : String) (s : SearchState α)
    (hfail : ∀ k, 0 < k → k ≤ t.length → compile (String.mk (t.data.take k)) = none) :
    (setSearchText compile searchFn menuEntries (some t) s).searchRegex = none ∧
    (setSearchText compile searchFn menuEntries (some t) s).matchesList = [] ∧
    (∀ (k : Nat) (r : α), 0 < k → k ≤ t'.length →
      compile (String.mk (t'.data.take k)) = some r →
      (∀ j, k < j → j ≤ t'.length → compile (String.mk (t'.data.take j)) = none) →
      (setSearchText compile searchFn menuEntries (some t') s).searchRegex = some r) ∧
    (setSearchText compile searchFn menuEntries (some "") s).searchRegex = none ∧
    (setSearchText compile searchFn menuEntries (some "") s).matchesList = [] ∧
    displayedIndexToMenuIndex menuEntries.length
        (setSearchText compile searchFn menuEntries (some "") s) =
      List.range menuEntries.length := by
  have hnone := tryCompile_eq_none compile t.data hfail
  have hempty : tryCompile compile ("" : String).data = none := by
    rw [show ("" : String).data = [] from rfl, tryCompile]
    simp
  refine ⟨?_, ?_, ?_, ?_, ?_, ?_⟩
  · show tryCompile compile t.data = none
    exact hnone
  · show updateMatches searchFn menuEntries (tryCompile compile t.data) = []
    rw [hnone]
    rfl
  · intro k r hk hkl hsucc hfailLonger
    show tryCompile compile t'.data = some r
    exact tryCompile_eq_some compile t'.data k r hk hkl hsucc hfailLonger
  · exact hempty
  · show updateMatches searchFn menuEntries (tryCompile compile ("" : String).data) = []
    rw [hempty]
    rfl
  · rfl

theorem setSearchText_spec_witness :
    (setSearchText (fun _ => (none : Option Unit)) (fun _ _ => none) ["a"] (some "x")
      ⟨false, none, none, []⟩).searchRegex = none ∧
    (setSearchText (fun _ => (none : Option Unit)) (fun _ _ => none) ["a"] (some "x")
      ⟨false, none, none, []⟩).matchesList = [] ∧
    (∀ (k : Nat) (r : Unit), 0 < k → k ≤ "y".length →
      (fun _ => (none : Option Unit)) (String.mk ("y".data.take k)) = some r →
      (∀ j, k < j → j ≤ "y".length →
        (fun _ => (none : Option Unit)) (String.mk ("y".data.take j)) = none) →
      (setSearchText (fun _ => (none : Option Unit)) (fun _ _ => none) ["a"] (some "y")
        ⟨false, none, none, []⟩).searchRegex = some r) ∧
    (setSearchText (fun _ => (none : Option Unit)) (fun _ _ => none) ["a"] (some "")
      ⟨false, none, none, []⟩).searchRegex = none ∧
    (setSearchText (fun _ => (none : Option Unit)) (fun _ _ => none) ["a"] (some "")
      ⟨false, none, none, []⟩).matchesList = [] ∧
    displayedIndexToMenuIndex (["a"] : List String).length
        (setSearchText (fun _ => (none : Option Unit)) (fun _ _ => none) ["a"] (some "")
          ⟨false, none, none, []⟩) =
      List.range (["a"] : List String).length :=
  setSearchText_spec (fun _ => none) (fun _ _ => none) ["a"] "x" "y"
    ⟨false, none, none, []⟩ (fun _ _ _ => rfl)

/-! ### `TerminalMenu.View` and the menu-level wiring -/

/-- The mutable state of `TerminalMenu.View` together with the pieces of the
menu it interacts with. -/
structure MenuState (α : Type) where
  menuEntries : List String
  search : SearchState α
  displayedIndexToMenu : List Nat
  selectedDisplayedIndex : Option Nat
  viewport : Viewport
  deriving Repr, DecidableEq

/-- `View.update_view`: recompute the displayed indices from the search state,
reset the selected displayed index to `0` (or `None` when nothing is
displayed), propagate the search line count into the viewport and keep the
cursor visible. -/
def updateView {α : Type} (termHeight : Int) (m : MenuState α) : MenuState α :=
  let displayed := displayedIndexToMenuIndex m.menuEntries.length m.search
  let selected : Option Nat := if displayed ≠ [] then some 0 else none
  let vp := { m.viewport with searchLinesCount := occupiedLinesCount m.search }
  let vp := keepVisible termHeight (selected.map fun n => (n : Int)) true vp
  { m with displayedIndexToMenu := displayed, selectedDisplayedIndex := selected,
           viewport := vp }

/-- Assigning `search_text` on the menu's `Search` object: the property setter
followed by the registered change callback `self._view.update_view`. -/
def menuSetSearchText {α : Type} (compile : String → Option α)
    (searchFn : α → String → Option (Nat × Nat)) (termHeight : Int)
    (m : MenuState α) (text : Option String) : MenuState α :=
  updateView termHeight
    { m with search := setSearchText compile searchFn m.menuEntries text m.search }

/-- C10: every search-text change runs `update_view` through the registered
change callback, which resets the selected displayed index to `0` when at
least one entry is displayed and to `None` when none is; the outcome is
independent of whatever selected index the view held before the change. -/
theorem menuSetSearchText_resets_selection {α : Type} (compile : String → Option α)
    (searchFn : α → String → Option (Nat × Nat)) (termHeight : Int)
    (m : MenuState α) (text : Option String) (x : Option Nat) :
    (menuSetSearchText compile searchFn termHeight m text).selectedDisplayedIndex =
      (if (menuSetSearchText compile searchFn termHeight m text).displayedIndexToMenu = []
       then none else some 0) ∧
    menuSetSearchText compile searchFn termHeight
        { m with selectedDisplayedIndex := x } text =
      menuSetSearchText compile searchFn termHeight m text := by
  constructor
  · show (if _ ≠ [] then some 0 else none) = _
    by_cases h : displayedIndexToMenuIndex m.menuEntries.length
        (setSearchText compile searchFn m.menuEntries text m.search) = [] <;>
      simp [menuSetSearchText, updateView, h]
  · rfl

/-- Python truthiness of an `Optional[int]` value: `None` and `0` are falsy. -/
def pyTruthyOptInt : Option Int → Bool
  | none => false
  | some i => i != 0

/-- The `View.selected_index` property setter: look up the displayed index
whose menu index equals the assigned value and keep it visible.  (The source
raises `IndexError` when no displayed index matches; that case is unreachable
from the guarded call in `__init__` modelled here.) -/
def setSelectedIndex {α : Type} (termHeight : Int) (m : MenuState α) (value : Int) :
    MenuState α :=
  match (m.displayedIndexToMenu.enum.filter fun p => (p.2 : Int) == value).head? with
  | some p =>
    { m with selectedDisplayedIndex := some p.1,
             viewport := keepVisible termHeight (some (p.1 : Int)) true m.viewport }
  | none => m

/-- The part of `TerminalMenu.__init__` that determines the initial selection:
build the `Search`, the `Viewport` (preview and search line counts 0) and the
`View`, then jump to `cursor_index` only when
`cursor_index and 0 < cursor_index < len(menu_entries)` holds. -/
def menuInit {α : Type} (compile : String → Option α)
    (searchFn : α → String → Option (Nat × Nat)) (termHeight : Int)
    (showSearchHint : Bool) (titleLinesCount : Int) (menuEntries : List String)
    (cursorIndex : Option Int) : MenuState α :=
  let search := setSearchText compile searchFn menuEntries none
    ⟨showSearchHint, none, none, []⟩
  let vp := viewportInit termHeight (menuEntries.length : Int) titleLinesCount 0 0
  let m1 := updateView termHeight ⟨menuEntries, search, [], none, vp⟩
  if pyTruthyOptInt cursorIndex ∧
      (0 : Int) < cursorIndex.getD 0 ∧ cursorIndex.getD 0 < (menuEntries.length : Int) then
    setSelectedIndex termHeight m1 (cursorIndex.getD 0)
  else
    m1

/-- C9: over a non-empty entry list, constructing the menu with
`cursor_index = 0` yields exactly the same state as constructing it with no
`cursor_index` at all — the guard uses the truthiness of the index, so `0`
skips the explicit jump just like `None` — and both leave the cursor at
displayed index `0`. -/
theorem menuInit_cursor_zero_eq_none {α : Type} (compile : String → Option α)
    (searchFn : α → String → Option (Nat × Nat)) (termHeight titleLines : Int)
    (hint : Bool) (menuEntries : List String) (h : menuEntries ≠ []) :
    menuInit compile searchFn termHeight hint titleLines menuEntries (some 0) =
      menuInit compile searchFn termHeight hint titleLines menuEntries none ∧
    (menuInit compile searchFn termHeight hint titleLines menuEntries
        (some 0)).selectedDisplayedIndex = some 0 := by
  have h0 : ¬(pyTruthyOptInt (some 0) = true ∧
      (0 : Int) < (some (0 : Int)).getD 0 ∧
      (some (0 : Int)).getD 0 < (menuEntries.length : Int)) := by
    simp [pyTruthyOptInt]
  have hn : ¬(pyTruthyOptInt none = true ∧
      (0 : Int) < (none : Option Int).getD 0 ∧
      (none : Option Int).getD 0 < (menuEntries.length : Int)) := by
    simp [pyTruthyOptInt]
  unfold menuInit
  rw [if_neg h0, if_neg hn]
  refine ⟨rfl, ?_⟩
  show (updateView _ _).selectedDisplayedIndex = some 0
  unfold updateView
  have hd : displayedIndexToMenuIndex menuEntries.length
      (setSearchText compile searchFn menuEntries none ⟨hint, none, none, []⟩) =
      List.range menuEntries.length := rfl
  simp only [hd]
  rw [if_pos]
  simp [List.range_eq_nil, h]

theorem menuInit_cursor_zero_eq_none_witness :
    menuInit (fun _ => (none : Option Unit)) (fun _ _ => none) 10 false 0 ["a", "b"]
        (some 0) =
      menuInit (fun _ => (none : Option Unit)) (fun _ _ => none) 10 false 0 ["a", "b"]
        none ∧
    (menuInit (fun _ => (none : Option Unit)) (fun _ _ => none) 10 false 0 ["a", "b"]
        (some 0)).selectedDisplayedIndex = some 0 :=
  menuInit_cursor_zero_eq_none (fun _ => none) (fun _ _ => none) 10 0 false ["a", "b"]
    (by simp)

/-! ### Terminal capability queries (`_query_terminfo_database`,
`_init_terminal_codes`) -/

/-- The static `_codename_to_capname` table, in source order. -/
def codenameToCapname : List (String × String) :=
  [("bg_black", "setab 0"), ("bg_blue", "setab 4"), ("bg_cyan", "setab 6"),
   ("bg_gray", "setab 7"), ("bg_green", "setab 2"), ("bg_purple", "setab 5"),
   ("bg_red", "setab 1"), ("bg_yellow", "setab 3"), ("bold", "bold"),
   ("clear", "clear"), ("colors", "colors"), ("cursor_down", "cud1"),
   ("cursor_invisible", "civis"), ("cursor_up", "cuu1"),
   ("cursor_visible", "cnorm"), ("delete_line", "dl1"), ("down", "kcud1"),
   ("enter_application_mode", "smkx"), ("exit_application_mode", "rmkx"),
   ("fg_black", "setaf 0"), ("fg_blue", "setaf 4"), ("fg_cyan", "setaf 6"),
   ("fg_gray", "setaf 7"), ("fg_green", "setaf 2"), ("fg_purple", "setaf 5"),
   ("fg_red", "setaf 1"), ("fg_yellow", "setaf 3"), ("italics", "sitm"),
   ("reset_attributes", "sgr0"), ("standout", "smso"), ("underline", "smul"),
   ("up", "kcuu1")]

/-- `_codenames = tuple(_codename_to_capname.keys())`. -/
def codenames : List String := codenameToCapname.map (·.1)

/-- Outcome of running the external `tput` process (an external collaborator):
either its standard output, or a `CalledProcessError` with a return code. -/
inductive TputResult where
  | success (out : String)
  | failure (returncode : Int)
  deriving Repr, DecidableEq

/-- The capname looked up (or passed through) by `_query_terminfo_database`. -/
def capnameOf (codename : String) : String :=
  match codenameToCapname.find? (fun p => p.1 == codename) with
  | some p => p.2
  | none => codename

/-- `TerminalMenu._query_terminfo_database`: run `tput <capname>`; a
`CalledProcessError` with return code 1 indicates a missing capability and
yields the empty string, any other `CalledProcessError` is re-raised. -/
def queryTerminfoDatabase (run : String → TputResult) (codename : String) :
    Except Int String :=
  match run (capnameOf codename) with
  | .success out => .ok out
  | .failure rc => if rc = 1 then .ok "" else .error rc

/-- Python's `str.startswith`, modelled on the character lists. -/
def pyStartsWith (s prefixStr : String) : Bool :=
  prefixStr.data.isPrefixOf s.data

/-- The per-codename value computed by `_init_terminal_codes`:
query the database unless the codename is a color (`bg_`/`fg_` prefix) and
the terminal supports fewer than 8 colors, in which case the code is `""`. -/
def terminalCodeForCodename (run : String → TputResult) (supportedColors : Int)
    (codename : String) : Except Int String :=
  if ¬(pyStartsWith codename "bg_" ∨ pyStartsWith codename "fg_") ∨ supportedColors ≥ 8 then
    queryTerminfoDatabase run codename
  else
    .ok ""

/-- C6: a capability the terminal lacks (the `tput` query exits with return
code 1) resolves to the empty string instead of raising; any other failure
return code of the query process propagates as an error; and every `bg_`/`fg_`
color codename resolves to the empty string when the terminal reports fewer
than 8 colors. -/
theorem queryTerminfoDatabase_spec (run : String → TputResult) (codename : String)
    (rc supportedColors : Int) :
    (run (capnameOf codename) = .failure 1 →
      queryTerminfoDatabase run codename = .ok "") ∧
    (run (capnameOf codename) = .failure rc → rc ≠ 1 →
      queryTerminfoDatabase run codename = .error rc) ∧
    ((pyStartsWith codename "bg_" ∨ pyStartsWith codename "fg_") → supportedColors < 8 →
      terminalCodeForCodename run supportedColors codename = .ok "") := by
  refine ⟨fun h => ?_, fun h hne => ?_, fun hpre hcol => ?_⟩
  · unfold queryTerminfoDatabase
    rw [h]
    simp
  · unfold queryTerminfoDatabase
    rw [h]
    show (if rc = 1 then Except.ok "" else Except.error rc) = Except.error rc
    rw [if_neg hne]
  · unfold terminalCodeForCodename
    rw [if_neg (by push_neg; exact ⟨hpre, by omega⟩)]

theorem queryTerminfoDatabase_spec_witness :
    queryTerminfoDatabase (fun _ => .failure 1) "bg_red" = .ok "" ∧
    queryTerminfoDatabase (fun _ => .failure 2) "bold" = .error 2 ∧
    terminalCodeForCodename (fun _ => .failure 1) 7 "fg_red" = .ok "" :=
  ⟨(queryTerminfoDatabase_spec (fun _ => .failure 1) "bg_red" 1 7).1 rfl,
   (queryTerminfoDatabase_spec (fun _ => .failure 2) "bold" 2 7).2.1 rfl (by decide),
   (queryTerminfoDatabase_spec (fun _ => .failure 1) "fg_red" 1 7).2.2 (by decide)
     (by decide)⟩

/-! ### Key codes (`_get_keycode_for_key`) -/

/-- Python's `\s` character class on `str` patterns: the characters for which
`Py_UNICODE_ISSPACE` holds (what `re` uses for `\s` without `re.ASCII`): the
ASCII whitespace `\t\n\v\f\r` and the space, the file/group/record/unit
separators `\x1c`..`\x1f`, and the Unicode whitespace characters `\x85`,
`\xa0`, `\u1680`, `\u2000`..`\u200a`, `\u2028`, `\u2029`, `\u202f`,
`\u205f` and `\u3000`. -/
def isPySpace (c : Char) : Bool :=
  c == ' ' || c == '\t' || c == '\n' || c == '\r' || c == '\x0b' || c == '\x0c' ||
  ('\x1c' ≤ c && c ≤ '\x1f') || c == '\x85' || c == '\xa0' ||
  c == '\u1680' || ('\u2000' ≤ c && c ≤ '\u200a') || c == '\u2028' ||
  c == '\u2029' || c == '\u202f' || c == '\u205f' || c == '\u3000'

/-- Python's `str.upper()` on a single ASCII character. -/
def pyUpperChar (c : Char) : Char :=
  if 'a' ≤ c ∧ c ≤ 'z' then Char.ofNat (c.toNat - 32) else c

/-- `re.compile(r"[Aa]lt-(\S)").match(key)`: the captured group, when the
pattern matches at the start of `key` (nothing after the group is anchored). -/
def altMatchGroup : List Char → Option Char
  | a :: 'l' :: 't' :: '-' :: c :: _ =>
    if (a = 'a' ∨ a = 'A') ∧ ¬(isPySpace c = true) then some c else none
  | _ => none

/-- `re.compile(r"[Cc]trl-(\S)").match(key)`: the captured group, when the
pattern matches at the start of `key`. -/
def ctrlMatchGroup : List Char → Option Char
  | a :: 't' :: 'r' :: 'l' :: '-' :: c :: _ =>
    if (a = 'c' ∨ a = 'C') ∧ ¬(isPySpace c = true) then some c else none
  | _ => none

/-- `TerminalMenu._get_keycode_for_key`: a one-character key is returned
verbatim, `alt-<c>` maps to escape plus `<c>`, `ctrl-<c>` maps to
`chr(ord(c.upper()) - 64)` where a negative code is masked with
`0x80 - 1 = 127` (Python `&` on a negative int, i.e. two's complement), and
any other key raises `ValueError` (modelled as `none`). -/
def getKeycodeForKey (key : String) : Option String :=
  if key.length = 1 then some key
  else match altMatchGroup key.data with
  | some c => some (String.mk ['\x1b', c])
  | none => match ctrlMatchGroup key.data with
    | some c =>
      let ctrlCodeAscii : Int := ((pyUpperChar c).toNat : Int) - 64
      let wrapped := if ctrlCodeAscii < 0 then Int.land ctrlCodeAscii 127 else ctrlCodeAscii
      some (String.mk [Char.ofNat wrapped.toNat])
    | none => none

theorem ldiff127_eq (m : Nat) (hm : m < 64) : Nat.ldiff 127 m = 127 - m := by
  interval_cases m <;> simp [Nat.ldiff, Nat.bitwise]

theorem land127_eq_emod (code : Int) (h1 : -64 ≤ code) (h2 : code < 0) :
    Int.land code 127 = code % 128 := by
  cases code with
  | ofNat n =>
    rw [Int.ofNat_eq_coe] at h2
    omega
  | negSucc m =>
    have hm : m < 64 := by
      rw [Int.negSucc_eq] at h1
      omega
    show (Nat.ldiff 127 m : Int) = _
    rw [ldiff127_eq m hm, Int.negSucc_eq]
    omega

theorem charToNat_ofNat (n : Nat) (h : n < 128) : (Char.ofNat n).toNat = n := by
  unfold Char.ofNat
  rw [dif_pos (Or.inl (by omega))]
  rfl

/-- C7: a single character key maps to itself; `alt-<c>` maps to escape
followed by `<c>`; `ctrl-<c>` maps to `chr(ord(c.upper()) - 64)` — equal to
`chr((ord(c.upper()) - 64) mod 128)`, i.e. the code taken exactly when it is
non-negative and wrapped into the unsigned 7-bit range `[0, 127]` when it is
negative. -/
theorem getKeycodeForKey_spec (c d : Char) (hsp : isPySpace c = false)
    (hascii : c.toNat < 128) :
    getKeycodeForKey (String.mk [d]) = some (String.mk [d]) ∧
    getKeycodeForKey ("alt-" ++ String.mk [c]) = some (String.mk ['\x1b', c]) ∧
    getKeycodeForKey ("ctrl-" ++ String.mk [c]) =
      some (String.mk [Char.ofNat ((((pyUpperChar c).toNat : Int) - 64) % 128).toNat]) ∧
    (0 ≤ ((pyUpperChar c).toNat : Int) - 64 →
      getKeycodeForKey ("ctrl-" ++ String.mk [c]) =
        some (String.mk [Char.ofNat (((pyUpperChar c).toNat : Int) - 64).toNat])) ∧
    (((pyUpperChar c).toNat : Int) - 64 < 0 →
      0 ≤ (((pyUpperChar c).toNat : Int) - 64) % 128 ∧
      (((pyUpperChar c).toNat : Int) - 64) % 128 ≤ 127) := by
  have hne : ¬ isPySpace c = true := by simp [hsp]
  have hu : (pyUpperChar c).toNat < 128 := by
    unfold pyUpperChar
    split
    · rw [charToNat_ofNat _ (by omega)]
      omega
    · exact hascii
  have hmod : (if (((pyUpperChar c).toNat : Int) - 64) < 0 then
      Int.land (((pyUpperChar c).toNat : Int) - 64) 127
      else (((pyUpperChar c).toNat : Int) - 64)) =
      (((pyUpperChar c).toNat : Int) - 64) % 128 := by
    split
    · exact land127_eq_emod _ (by omega) (by omega)
    · rw [Int.emod_eq_of_lt (by omega) (by omega)]
  have hctrl : getKeycodeForKey ("ctrl-" ++ String.mk [c]) =
      some (String.mk [Char.ofNat ((((pyUpperChar c).toNat : Int) - 64) % 128).toNat]) := by
    unfold getKeycodeForKey
    rw [if_neg (by rw [show ("ctrl-" ++ String.mk [c]).length = 6 from rfl]; omega)]
    rw [show ("ctrl-" ++ String.mk [c]).data = 'c' :: 't' :: 'r' :: 'l' :: '-' :: c :: []
      from rfl]
    rw [show altMatchGroup ('c' :: 't' :: 'r' :: 'l' :: '-' :: c :: []) = none from rfl]
    have hcm : ctrlMatchGroup ('c' :: 't' :: 'r' :: 'l' :: '-' :: c :: []) = some c := by
      show (if ('c' = 'c' ∨ 'c' = 'C') ∧ ¬(isPySpace c = true) then some c else none) = some c
      rw [if_pos ⟨Or.inl rfl, hne⟩]
    rw [hcm]
    show some (String.mk [Char.ofNat (if (((pyUpperChar c).toNat : Int) - 64) < 0 then
      Int.land (((pyUpperChar c).toNat : Int) - 64) 127
      else (((pyUpperChar c).toNat : Int) - 64)).toNat]) = _
    rw [hmod]
  refine ⟨?_, ?_, hctrl, ?_, ?_⟩
  · unfold getKeycodeForKey
    rw [if_pos (show (String.mk [d]).length = 1 from rfl)]
  · unfold getKeycodeForKey
    rw [if_neg (by rw [show ("alt-" ++ String.mk [c]).length = 5 from rfl]; omega)]
    rw [show ("alt-" ++ String.mk [c]).data = 'a' :: 'l' :: 't' :: '-' :: c :: [] from rfl]
    have ham : altMatchGroup ('a' :: 'l' :: 't' :: '-' :: c :: []) = some c := by
      show (if ('a' = 'a' ∨ 'a' = 'A') ∧ ¬(isPySpace c = true) then some c else none) = some c
      rw [if_pos ⟨Or.inl rfl, hne⟩]
    rw [ham]
  · intro hpos
    rw [hctrl, Int.emod_eq_of_lt hpos (by omega)]
  · intro hneg
    exact ⟨Int.emod_nonneg _ (by omega), by omega⟩

theorem getKeycodeForKey_spec_witness :
    getKeycodeForKey (String.mk ['x']) = some (String.mk ['x']) ∧
    getKeycodeForKey ("alt-" ++ String.mk ['a']) = some (String.mk ['\x1b', 'a']) ∧
    getKeycodeForKey ("ctrl-" ++ String.mk ['a']) =
      some (String.mk [Char.ofNat ((((pyUpperChar 'a').toNat : Int) - 64) % 128).toNat]) ∧
    (0 ≤ ((pyUpperChar 'a').toNat : Int) - 64 →
      getKeycodeForKey ("ctrl-" ++ String.mk ['a']) =
        some (String.mk [Char.ofNat (((pyUpperChar 'a').toNat : Int) - 64).toNat])) ∧
    (((pyUpperChar 'a').toNat : Int) - 64 < 0 →
      0 ≤ (((pyUpperChar 'a').toNat : Int) - 64) % 128 ∧
      (((pyUpperChar 'a').toNat : Int) - 64) % 128 ≤ 127) :=
  getKeycodeForKey_spec 'a' 'x' (by decide) (by decide)

/-! ### Terminal code table construction and key decoding
(`_name_to_control_character`, `_add_missing_control_characters_for_keys`,
`_init_terminal_codes`, `_read_next_key`) -/

/-- `string.ascii_letters`. -/
def asciiLettersStr : String :=
  "abcdefghijklmnopqrstuvwxyzABCDEFGHIJKLMNOPQRSTUVWXYZ"

/-- Substring occurrence check on character lists. -/
def listInfixCheck (needle : List Char) : List Char → Bool
  | [] => needle.isEmpty
  | h :: t => needle.isPrefixOf (h :: t) || listInfixCheck needle t

/-- Python's `in` on strings: substring membership. -/
def pyInStr (needle haystack : String) : Bool :=
  listInfixCheck needle.data haystack.data

/-- The static `_name_to_control_character` class dictionary; `backspace` is
assigned by `_init_backspace_control_character` before the table is used and
is passed in here. -/
def staticNameToControlCharacter (backspace : String) : List (String × String) :=
  [("backspace", backspace), ("ctrl-j", "\n"), ("ctrl-k", "\x0b"),
   ("enter", "\r"), ("escape", "\x1b")]

/-- `_add_missing_control_characters_for_keys`: append `(key, keycode)` for
every key that is neither already in the dictionary nor a substring of
`string.ascii_letters`; a key the derivation cannot interpret raises
`ValueError` (modelled as `none`). -/
def addMissingControlCharactersForKeys (keys : List String)
    (table : List (String × String)) : Option (List (String × String)) :=
  match keys with
  | [] => some table
  | k :: ks =>
    if table.any (fun p => p.1 == k) || pyInStr k asciiLettersStr then
      addMissingControlCharactersForKeys ks table
    else
      match getKeycodeForKey k with
      | some code => addMissingControlCharactersForKeys ks (table ++ [(k, code)])
      | none => none

/-- The `_codename_to_terminal_code` dictionary built by
`_init_terminal_codes`: capability codes for the codenames (queried from the
terminfo database, abstracted as `caps`) updated with the control character
entries.  The codenames and control-character names are disjoint, so the
Python `dict.update` appends the control pairs after the capability pairs. -/
def codenameToTerminalCodePairs (caps : String → String)
    (controlPairs : List (String × String)) : List (String × String) :=
  codenames.map (fun n => (n, caps n)) ++ controlPairs

/-- Lookup in the inverse `_terminal_code_to_codename` dictionary:
`{terminal_code: codename for codename, terminal_code in ...}` keeps, for
every code, the codename of the **last** pair producing it. -/
def lookupCodename (pairs : List (String × String)) (code : String) : Option String :=
  (pairs.reverse.find? (fun p => p.2 == code)).map (·.1)

/-- `_read_next_key` without the blocking I/O: resolve the received byte
sequence through the inverse dictionary, falling back to the literal
(lower-cased when `ignore_case`) character. -/
def readNextKeyDecode (pairs : List (String × String)) (ignoreCase : Bool)
    (code : String) : String :=
  match lookupCodename pairs code with
  | some name => name
  | none => if ignoreCase then code.toLower else code

theorem decode_appended_key (caps : String → String) (table : List (String × String))
    (key code : String) :
    readNextKeyDecode (codenameToTerminalCodePairs caps (table ++ [(key, code)]))
      true code = key := by
  unfold readNextKeyDecode lookupCodename codenameToTerminalCodePairs
  rw [List.reverse_append, List.reverse_append]
  simp [List.find?]

/-- C3: for every ASCII letter `c`, deriving the byte sequence of the key name
`ctrl-<c>` (resp. `alt-<c>`) with the key-derivation algorithm, registering the
name in the control-character dictionary (as `_add_missing_control_characters_for_keys`
does for configured keys; `ctrl-j`/`ctrl-k` are in the static dictionary
already) and decoding that byte sequence through the inverse
terminal-code-to-codename mapping returns the same symbolic name, for every
capability table and backspace sequence. -/
theorem keycode_decode_roundtrip (caps : String → String) (backspace : String)
    (c : Char) (hc : c ∈ asciiLettersStr.data) :
    (∀ keycode table,
      getKeycodeForKey ("ctrl-" ++ String.mk [c]) = some keycode →
      addMissingControlCharactersForKeys ["ctrl-" ++ String.mk [c]]
          (staticNameToControlCharacter backspace) = some table →
      readNextKeyDecode (codenameToTerminalCodePairs caps table) true keycode =
        "ctrl-" ++ String.mk [c]) ∧
    (∀ keycode table,
      getKeycodeForKey ("alt-" ++ String.mk [c]) = some keycode →
      addMissingControlCharactersForKeys ["alt-" ++ String.mk [c]]
          (staticNameToControlCharacter backspace) = some table →
      readNextKeyDecode (codenameToTerminalCodePairs caps table) true keycode =
        "alt-" ++ String.mk [c]) := by
  constructor
  · intro keycode table hkey htable
    by_cases hj : c = 'j'
    · subst hj
      rw [show ("ctrl-" ++ String.mk ['j']) = "ctrl-j" from rfl] at hkey htable ⊢
      rw [show getKeycodeForKey "ctrl-j" = some "\n" from by decide] at hkey
      have hkc : keycode = "\n" := (Option.some.inj hkey).symm
      have hstep : addMissingControlCharactersForKeys ["ctrl-j"]
          (staticNameToControlCharacter backspace) =
          some (staticNameToControlCharacter backspace) := by
        unfold addMissingControlCharactersForKeys
        rw [if_pos (by simp [staticNameToControlCharacter])]
        rfl
      rw [hstep] at htable
      have htab : table = staticNameToControlCharacter backspace :=
        (Option.some.inj htable).symm
      subst hkc htab
      unfold readNextKeyDecode lookupCodename codenameToTerminalCodePairs
      rw [List.reverse_append]
      simp [staticNameToControlCharacter, List.find?]
    · by_cases hk : c = 'k'
      · subst hk
        rw [show ("ctrl-" ++ String.mk ['k']) = "ctrl-k" from rfl] at hkey htable ⊢
        rw [show getKeycodeForKey "ctrl-k" = some "\x0b" from by decide] at hkey
        have hkc : keycode = "\x0b" := (Option.some.inj hkey).symm
        have hstep : addMissingControlCharactersForKeys ["ctrl-k"]
            (staticNameToControlCharacter backspace) =
            some (staticNameToControlCharacter backspace) := by
          unfold addMissingControlCharactersForKeys
          rw [if_pos (by simp [staticNameToControlCharacter])]
          rfl
        rw [hstep] at htable
        have htab : table = staticNameToControlCharacter backspace :=
          (Option.some.inj htable).symm
        subst hkc htab
        unfold readNextKeyDecode lookupCodename codenameToTerminalCodePairs
        rw [List.reverse_append]
        simp [staticNameToControlCharacter, List.find?]
      · have e1 : ("backspace" == ("ctrl-" ++ String.mk [c])) = false := rfl
        have e2 : ("ctrl-j" == ("ctrl-" ++ String.mk [c])) = false := by
          rw [beq_eq_false_iff_ne]
          intro heq
          have hd := congrArg String.data heq
          rw [show "ctrl-j".data = ['c', 't', 'r', 'l', '-', 'j'] from rfl,
              show ("ctrl-" ++ String.mk [c]).data = ['c', 't', 'r', 'l', '-', c]
                from rfl] at hd
          simp at hd
          exact hj hd.symm
        have e3 : ("ctrl-k" == ("ctrl-" ++ String.mk [c])) = false := by
          rw [beq_eq_false_iff_ne]
          intro heq
          have hd := congrArg String.data heq
          rw [show "ctrl-k".data = ['c', 't', 'r', 'l', '-', 'k'] from rfl,
              show ("ctrl-" ++ String.mk [c]).data = ['c', 't', 'r', 'l', '-', c]
                from rfl] at hd
          simp at hd
          exact hk hd.symm
        have e4 : ("enter" == ("ctrl-" ++ String.mk [c])) = false := rfl
        have e5 : ("escape" == ("ctrl-" ++ String.mk [c])) = false := rfl
        have e6 : pyInStr ("ctrl-" ++ String.mk [c]) asciiLettersStr = false := rfl
        have hcond : ((staticNameToControlCharacter backspace).any
            (fun p => p.1 == ("ctrl-" ++ String.mk [c])) ||
            pyInStr ("ctrl-" ++ String.mk [c]) asciiLettersStr) = false := by
          simp [staticNameToControlCharacter, e1, e2, e3, e4, e5, e6]
        have hstep : addMissingControlCharactersForKeys ["ctrl-" ++ String.mk [c]]
            (staticNameToControlCharacter backspace) =
            some (staticNameToControlCharacter backspace ++
              [("ctrl-" ++ String.mk [c], keycode)]) := by
          unfold addMissingControlCharactersForKeys
          rw [if_neg (by rw [hcond]; simp), hkey]
          rfl
        rw [hstep] at htable
        have htab : table = staticNameToControlCharacter backspace ++
            [("ctrl-" ++ String.mk [c], keycode)] := (Option.some.inj htable).symm
        subst htab
        exact decode_appended_key caps _ _ keycode
  · intro keycode table hkey htable
    have e1 : ("backspace" == ("alt-" ++ String.mk [c])) = false := rfl
    have e2 : ("ctrl-j" == ("alt-" ++ String.mk [c])) = false := rfl
    have e3 : ("ctrl-k" == ("alt-" ++ String.mk [c])) = false := rfl
    have e4 : ("enter" == ("alt-" ++ String.mk [c])) = false := rfl
    have e5 : ("escape" == ("alt-" ++ String.mk [c])) = false := rfl
    have e6 : pyInStr ("alt-" ++ String.mk [c]) asciiLettersStr = false := rfl
    have hcond : ((staticNameToControlCharacter backspace).any
        (fun p => p.1 == ("alt-" ++ String.mk [c])) ||
        pyInStr ("alt-" ++ String.mk [c]) asciiLettersStr) = false := by
      simp [staticNameToControlCharacter, e1, e2, e3, e4, e5, e6]
    have hstep : addMissingControlCharactersForKeys ["alt-" ++ String.mk [c]]
        (staticNameToControlCharacter backspace) =
        some (staticNameToControlCharacter backspace ++
          [("alt-" ++ String.mk [c], keycode)]) := by
      unfold addMissingControlCharactersForKeys
      rw [if_neg (by rw [hcond]; simp), hkey]
      rfl
    rw [hstep] at htable
    have htab : table = staticNameToControlCharacter backspace ++
        [("alt-" ++ String.mk [c], keycode)] := (Option.some.inj htable).symm
    subst htab
    exact decode_appended_key caps _ _ keycode

theorem keycode_decode_roundtrip_witness :
    (∀ keycode table,
      getKeycodeForKey ("ctrl-" ++ String.mk ['a']) = some keycode →
      addMissingControlCharactersForKeys ["ctrl-" ++ String.mk ['a']]
          (staticNameToControlCharacter "\x7f") = some table →
      readNextKeyDecode (codenameToTerminalCodePairs (fun _ => "") table) true keycode =
        "ctrl-" ++ String.mk ['a']) ∧
    (∀ keycode table,
      getKeycodeForKey ("alt-" ++ String.mk ['a']) = some keycode →
      addMissingControlCharactersForKeys ["alt-" ++ String.mk ['a']]
          (staticNameToControlCharacter "\x7f") = some table →
      readNextKeyDecode (codenameToTerminalCodePairs (fun _ => "") table) true keycode =
        "alt-" ++ String.mk ['a']) :=
  keycode_decode_roundtrip (fun _ => "") "\x7f" 'a' (by decide)

/-! ### Entry parsing (`extract_shortcuts_menu_entries_and_preview_arguments`) -/

/-- `re.compile(r"([^\\])\|").sub("\\1\x1F", entry)`: left-to-right,
non-overlapping replacement of every non-backslash character followed by a
pipe with that character followed by the unit separator. -/
def subSeparator : List Char → List Char
  | [] => []
  | [c] => [c]
  | c1 :: c2 :: rest =>
    if c2 = '|' ∧ c1 ≠ '\\' then c1 :: '\x1f' :: subSeparator rest
    else c1 :: subSeparator (c2 :: rest)
termination_by l => l.length
decreasing_by all_goals (simp; try omega)

/-- `re.compile(r"\\\|").sub("|", ·)`: replace every `\|` by `|`. -/
def subEscapedSeparator : List Char → List Char
  | [] => []
  | [c] => [c]
  | c1 :: c2 :: rest =>
    if c1 = '\\' ∧ c2 = '|' then '|' :: subEscapedSeparator rest
    else c1 :: subEscapedSeparator (c2 :: rest)
termination_by l => l.length
decreasing_by all_goals (simp; try omega)

/-- The `([^\x1F]+)(?:\x1F([^\x1F]*))?` tail of the menu-entry pattern:
a non-empty display text up to the first unit separator, optionally followed
by a preview argument up to the next unit separator. -/
def takeDisplay (l : List Char) : Option (List Char × Option (List Char)) :=
  let d := l.takeWhile (fun ch => ch != '\x1f')
  if d.isEmpty then none
  else
    some (d,
      match l.drop d.length with
      | '\x1f' :: rest => some (rest.takeWhile (fun ch => ch != '\x1f'))
      | _ => none)

/-- Backtracking of the greedy `\s*` after a shortcut marker: try consuming
`j` whitespace characters, then fewer, until the display group can match. -/
def tryShrinkWs (c : Char) (rest : List Char) :
    Nat → Option (Option Char × List Char × Option (List Char))
  | 0 => (takeDisplay rest).map fun dp => (some c, dp.1, dp.2)
  | j + 1 =>
    match takeDisplay (rest.drop (j + 1)) with
    | some dp => some (some c, dp.1, dp.2)
    | none => tryShrinkWs c rest j

/-- The optional `\[(\S)\]\s*` shortcut-marker head of the menu-entry
pattern, with the regex backtracking of the greedy `\s*`. -/
def markerMatch (l : List Char) :
    Option (Option Char × List Char × Option (List Char)) :=
  match l with
  | '[' :: c :: ']' :: rest =>
    if isPySpace c then none
    else tryShrinkWs c rest (rest.takeWhile isPySpace).length
  | _ => none

/-- `menu_entry_pattern.match` for
`^(?:\[(\S)\]\s*)?([^\x1F]+)(?:\x1F([^\x1F]*))?`: try the optional marker
group first; when no overall match arises that way the regex engine
backtracks and matches the display text from the start of the string. -/
def menuEntryMatch (l : List Char) :
    Option (Option Char × List Char × Option (List Char)) :=
  match markerMatch l with
  | some r => some r
  | none => (takeDisplay l).map fun dp => (none, dp.1, dp.2)

/-- One iteration of the `extract_shortcuts_menu_entries_and_preview_arguments`
loop: substitute unescaped pipes by unit separators, unescape `\|`, then match
the menu-entry pattern (`none` models the failing `assert`). -/
def extractEntry (entry : String) : Option (Option Char × String × Option String) :=
  (menuEntryMatch (subEscapedSeparator (subSeparator entry.data))).map
    fun r => (r.1, String.mk r.2.1, r.2.2.map String.mk)

/-- C8 counterexample: on the entry `"a|b|c"` the code produces the preview
argument `"b"` — the segment between the first and the second unescaped pipe —
and discards `"c"`, whereas the claimed parse keeps the whole trailing
remainder `"b|c"` after the first unescaped pipe. -/
theorem extractEntry_counterexample :
    extractEntry "a|b|c" = some (none, "a", some "b") ∧
    extractEntry "a|b|c" ≠ some (none, "a", some "b|c") := by
  constructor <;>
    simp [extractEntry, subSeparator, subEscapedSeparator, menuEntryMatch,
      markerMatch, takeDisplay, tryShrinkWs, isPySpace, List.takeWhile]

/-- Characters that take no part in the pipe/escape/unit-separator machinery. -/
def cleanChar (ch : Char) : Prop := ch ≠ '|' ∧ ch ≠ '\\' ∧ ch ≠ '\x1f'

instance (ch : Char) : Decidable (cleanChar ch) := by
  unfold cleanChar
  infer_instance

theorem takeWhile_append_stop (p : Char → Bool) (a : List Char) (x : Char)
    (r : List Char) (ha : ∀ ch ∈ a, p ch = true) (hx : p x = false) :
    (a ++ x :: r).takeWhile p = a := by
  induction a with
  | nil => simp [List.takeWhile_cons, hx]
  | cons ch a' ih =>
    have h1 : p ch = true := ha ch (by simp)
    have h2 := ih (fun d hd => ha d (by simp [hd]))
    simp [List.takeWhile_cons, h1, h2]

theorem takeWhile_all (p : Char → Bool) (l : List Char)
    (h : ∀ ch ∈ l, p ch = true) : l.takeWhile p = l := by
  induction l with
  | nil => rfl
  | cons ch l' ih =>
    have h1 : p ch = true := h ch (by simp)
    have h2 := ih (fun d hd => h d (by simp [hd]))
    simp [List.takeWhile_cons, h1, h2]

theorem subSeparator_no_pipe (l : List Char) (h : ∀ ch ∈ l, ch ≠ '|') :
    subSeparator l = l := by
  induction l with
  | nil => simp [subSeparator]
  | cons c1 rest ih =>
    cases rest with
    | nil => simp [subSeparator]
    | cons c2 rest2 =>
      simp only [subSeparator]
      rw [if_neg (fun hcnd => h c2 (by simp) hcnd.1),
        ih (fun ch hch => h ch (by simp [hch]))]

theorem subSeparator_append_pipe (a rest : List Char) (hne : a ≠ [])
    (hp : ∀ ch ∈ a, ch ≠ '|') (hbs : ∀ ch ∈ a, ch ≠ '\\') :
    subSeparator (a ++ '|' :: rest) = a ++ '\x1f' :: subSeparator rest := by
  induction a with
  | nil => exact absurd rfl hne
  | cons x a' ih =>
    cases a' with
    | nil =>
      have hx : x ≠ '\\' := hbs x (by simp)
      simp only [List.cons_append, List.nil_append, subSeparator]
      rw [if_pos (by simp [hx])]
    | cons y a'' =>
      simp only [List.cons_append, subSeparator]
      rw [if_neg (fun hcnd => hp y (by simp) hcnd.1)]
      have := ih (by simp) (fun ch hch => hp ch (by simp [hch]))
        (fun ch hch => hbs ch (by simp [hch]))
      simp only [List.cons_append] at this
      rw [this]

theorem subSeparator_cons_pipe (b : List Char) (hp : ∀ ch ∈ b, ch ≠ '|') :
    subSeparator ('|' :: b) = '|' :: b := by
  cases b with
  | nil => simp [subSeparator]
  | cons h t =>
    simp only [subSeparator]
    rw [if_neg (fun hcnd => hp h (by simp) hcnd.1), subSeparator_no_pipe (h :: t) hp]

theorem subSeparator_escaped (a b : List Char)
    (hpa : ∀ ch ∈ a, ch ≠ '|') (hba : ∀ ch ∈ a, ch ≠ '\\')
    (hpb : ∀ ch ∈ b, ch ≠ '|') :
    subSeparator (a ++ '\\' :: '|' :: b) = a ++ '\\' :: '|' :: b := by
  have hbase : subSeparator ('\\' :: '|' :: b) = '\\' :: '|' :: b := by
    simp only [subSeparator]
    rw [if_neg (by simp), subSeparator_cons_pipe b hpb]
  induction a with
  | nil => simpa using hbase
  | cons x a' ih =>
    cases a' with
    | nil =>
      simp only [List.cons_append, List.nil_append, subSeparator]
      simp [subSeparator_cons_pipe b hpb]
    | cons y a'' =>
      simp only [List.cons_append, subSeparator]
      rw [if_neg (fun hcnd => hpa y (by simp) hcnd.1)]
      have := ih (fun ch hch => hpa ch (by simp [hch]))
        (fun ch hch => hba ch (by simp [hch]))
      simp only [List.cons_append] at this
      rw [this]

theorem subEscapedSeparator_no_backslash (l : List Char)
    (h : ∀ ch ∈ l, ch ≠ '\\') : subEscapedSeparator l = l := by
  induction l with
  | nil => simp [subEscapedSeparator]
  | cons c1 rest ih =>
    cases rest with
    | nil => simp [subEscapedSeparator]
    | cons c2 rest2 =>
      simp only [subEscapedSeparator]
      rw [if_neg (fun hcnd => h c1 (by simp) hcnd.1),
        ih (fun ch hch => h ch (by simp [hch]))]

theorem subEscapedSeparator_cons_escaped (b : List Char)
    (hb : ∀ ch ∈ b, ch ≠ '\\') :
    subEscapedSeparator ('\\' :: '|' :: b) = '|' :: b := by
  simp only [subEscapedSeparator]
  rw [if_pos (by simp), subEscapedSeparator_no_backslash b hb]

theorem subEscapedSeparator_append_escaped (a b : List Char)
    (ha : ∀ ch ∈ a, ch ≠ '\\') (hb : ∀ ch ∈ b, ch ≠ '\\') :
    subEscapedSeparator (a ++ '\\' :: '|' :: b) = a ++ '|' :: b := by
  induction a with
  | nil => simpa using subEscapedSeparator_cons_escaped b hb
  | cons x a' ih =>
    cases a' with
    | nil =>
      simp only [List.cons_append, List.nil_append, subEscapedSeparator]
      simp [subEscapedSeparator_no_backslash b hb]
    | cons y a'' =>
      simp only [List.cons_append, subEscapedSeparator]
      rw [if_neg (fun hcnd => ha x (by simp) hcnd.1)]
      have := ih (fun ch hch => ha ch (by simp [hch]))
      simp only [List.cons_append] at this
      rw [this]

theorem takeDisplay_no_sep (a : List Char) (hne : a ≠ [])
    (ha : ∀ ch ∈ a, ch ≠ '\x1f') : takeDisplay a = some (a, none) := by
  unfold takeDisplay
  have ht : a.takeWhile (fun ch => ch != '\x1f') = a :=
    takeWhile_all _ a (fun ch hch => by simp [ha ch hch])
  rw [ht, if_neg (by simp [hne]), List.drop_length]

theorem takeDisplay_sep (a rest : List Char) (hne : a ≠ [])
    (ha : ∀ ch ∈ a, ch ≠ '\x1f') :
    takeDisplay (a ++ '\x1f' :: rest) =
      some (a, some (rest.takeWhile (fun ch => ch != '\x1f'))) := by
  unfold takeDisplay
  have ht : (a ++ '\x1f' :: rest).takeWhile (fun ch => ch != '\x1f') = a :=
    takeWhile_append_stop _ a '\x1f' rest (fun ch hch => by simp [ha ch hch])
      (by decide)
  rw [ht, if_neg (by simp [hne]), List.drop_left]
  rfl

theorem markerMatch_none (l : List Char) (h : l.head? ≠ some '[') :
    markerMatch l = none := by
  unfold markerMatch
  split
  · simp at h
  · rfl

theorem markerMatch_marker (k : Char) (a : List Char) (hk : isPySpace k = false)
    (hasp : ∀ x, a.head? = some x → isPySpace x = false)
    (hane : a ≠ []) (hax : ∀ ch ∈ a, ch ≠ '\x1f') :
    markerMatch ('[' :: k :: ']' :: a) = some (some k, a, none) := by
  show (if isPySpace k = true then none
    else tryShrinkWs k a (a.takeWhile isPySpace).length) = _
  rw [if_neg (by simp [hk])]
  have hws : a.takeWhile isPySpace = [] := by
    cases a with
    | nil => rfl
    | cons x t => simp [List.takeWhile_cons, hasp x rfl]
  rw [hws]
  show (takeDisplay a).map _ = _
  rw [takeDisplay_no_sep a hane hax]
  rfl

theorem menuEntryMatch_no_marker (l : List Char) (hl : l.head? ≠ some '[') :
    menuEntryMatch l = (takeDisplay l).map fun dp => (none, dp.1, dp.2) := by
  unfold menuEntryMatch
  rw [markerMatch_none l hl]

/-- C8 (amended): parsing a raw entry extracts an optional leading `[<char>]`
shortcut marker, and an optional preview argument delimited by the first
unescaped `|` and extending up to the **second** unescaped `|` (or the end of
the string) — text after a second unescaped pipe is discarded — with `\|`
standing for a literal pipe in the display text; an entry with no marker and
no pipe parses to itself with no shortcut and no preview argument. -/
theorem extractEntry_spec (a b c : String) (k : Char)
    (ha : ∀ ch ∈ a.data, cleanChar ch) (hb : ∀ ch ∈ b.data, cleanChar ch)
    (hc : ∀ ch ∈ c.data, cleanChar ch)
    (hane : a.data ≠ []) (hamark : a.data.head? ≠ some '[')
    (hbne : b.data ≠ [])
    (hk : isPySpace k = false) (hkp : k ≠ '|') (hkb : k ≠ '\\')
    (hasp : ∀ x, a.data.head? = some x → isPySpace x = false) :
    extractEntry a = some (none, a, none) ∧
    extractEntry (a ++ "|" ++ b) = some (none, a, some b) ∧
    extractEntry (a ++ "|" ++ b ++ "|" ++ c) = some (none, a, some b) ∧
    extractEntry (a ++ "\\|" ++ b) = some (none, a ++ "|" ++ b, none) ∧
    extractEntry ("[" ++ String.mk [k] ++ "]" ++ a) = some (some k, a, none) := by
  have hap : ∀ ch ∈ a.data, ch ≠ '|' := fun ch h => (ha ch h).1
  have hab : ∀ ch ∈ a.data, ch ≠ '\\' := fun ch h => (ha ch h).2.1
  have hax : ∀ ch ∈ a.data, ch ≠ '\x1f' := fun ch h => (ha ch h).2.2
  have hbp : ∀ ch ∈ b.data, ch ≠ '|' := fun ch h => (hb ch h).1
  have hbb : ∀ ch ∈ b.data, ch ≠ '\\' := fun ch h => (hb ch h).2.1
  have hbx : ∀ ch ∈ b.data, ch ≠ '\x1f' := fun ch h => (hb ch h).2.2
  have hcp : ∀ ch ∈ c.data, ch ≠ '|' := fun ch h => (hc ch h).1
  have hcb : ∀ ch ∈ c.data, ch ≠ '\\' := fun ch h => (hc ch h).2.1
  obtain ⟨a0, at0, hacons⟩ := List.exists_cons_of_ne_nil hane
  have hhead : ∀ (r : List Char), (a.data ++ r).head? = a.data.head? := by
    intro r
    rw [hacons]
    rfl
  refine ⟨?_, ?_, ?_, ?_, ?_⟩
  · unfold extractEntry
    rw [subSeparator_no_pipe a.data hap, subEscapedSeparator_no_backslash a.data hab,
      menuEntryMatch_no_marker a.data hamark, takeDisplay_no_sep a.data hane hax]
    rfl
  · have hd2 : (a ++ "|" ++ b).data = a.data ++ '|' :: b.data := by simp
    have hnb : ∀ ch ∈ a.data ++ '\x1f' :: b.data, ch ≠ '\\' := by
      intro ch h
      rcases List.mem_append.mp h with h | h
      · exact hab ch h
      · rcases List.mem_cons.mp h with rfl | h
        · decide
        · exact hbb ch h
    unfold extractEntry
    rw [hd2, subSeparator_append_pipe a.data b.data hane hap hab,
      subSeparator_no_pipe b.data hbp, subEscapedSeparator_no_backslash _ hnb,
      menuEntryMatch_no_marker _ (by rw [hhead]; exact hamark),
      takeDisplay_sep a.data b.data hane hax,
      takeWhile_all _ b.data (fun ch h => by simp [hbx ch h])]
    rfl
  · have hd3 : (a ++ "|" ++ b ++ "|" ++ c).data =
        a.data ++ '|' :: (b.data ++ '|' :: c.data) := by
      simp
    have hnb : ∀ ch ∈ a.data ++ '\x1f' :: (b.data ++ '\x1f' :: c.data), ch ≠ '\\' := by
      intro ch h
      rcases List.mem_append.mp h with h | h
      · exact hab ch h
      · rcases List.mem_cons.mp h with rfl | h
        · decide
        · rcases List.mem_append.mp h with h | h
          · exact hbb ch h
          · rcases List.mem_cons.mp h with rfl | h
            · decide
            · exact hcb ch h
    unfold extractEntry
    rw [hd3, subSeparator_append_pipe a.data _ hane hap hab,
      subSeparator_append_pipe b.data c.data hbne hbp hbb,
      subSeparator_no_pipe c.data hcp, subEscapedSeparator_no_backslash _ hnb,
      menuEntryMatch_no_marker _ (by rw [hhead]; exact hamark),
      takeDisplay_sep a.data _ hane hax,
      takeWhile_append_stop _ b.data '\x1f' c.data
        (fun ch h => by simp [hbx ch h]) (by decide)]
    rfl
  · have hd4 : (a ++ "\\|" ++ b).data = a.data ++ '\\' :: '|' :: b.data := by simp
    have hnx : ∀ ch ∈ a.data ++ '|' :: b.data, ch ≠ '\x1f' := by
      intro ch h
      rcases List.mem_append.mp h with h | h
      · exact hax ch h
      · rcases List.mem_cons.mp h with rfl | h
        · decide
        · exact hbx ch h
    unfold extractEntry
    rw [hd4, subSeparator_escaped a.data b.data hap hab hbp,
      subEscapedSeparator_append_escaped a.data b.data hab hbb,
      menuEntryMatch_no_marker _ (by rw [hhead]; exact hamark),
      takeDisplay_no_sep _ (by simp [hane]) hnx,
      show (a ++ "|" ++ b) = String.mk (a.data ++ '|' :: b.data) from
        String.ext (by simp)]
    rfl
  · have hd5 : ("[" ++ String.mk [k] ++ "]" ++ a).data = '[' :: k :: ']' :: a.data := by
      simp
    have hnp : ∀ ch ∈ '[' :: k :: ']' :: a.data, ch ≠ '|' := by
      intro ch h
      rcases List.mem_cons.mp h with rfl | h
      · decide
      · rcases List.mem_cons.mp h with rfl | h
        · exact hkp
        · rcases List.mem_cons.mp h with rfl | h
          · decide
          · exact hap ch h
    have hnb : ∀ ch ∈ '[' :: k :: ']' :: a.data, ch ≠ '\\' := by
      intro ch h
      rcases List.mem_cons.mp h with rfl | h
      · decide
      · rcases List.mem_cons.mp h with rfl | h
        · exact hkb
        · rcases List.mem_cons.mp h with rfl | h
          · decide
          · exact hab ch h
    unfold extractEntry
    rw [hd5, subSeparator_no_pipe _ hnp, subEscapedSeparator_no_backslash _ hnb]
    unfold menuEntryMatch
    rw [markerMatch_marker k a.data hk hasp hane hax]
    rfl

theorem extractEntry_spec_witness :
    extractEntry "x" = some (none, "x", none) ∧
    extractEntry ("x" ++ "|" ++ "y") = some (none, "x", some "y") ∧
    extractEntry ("x" ++ "|" ++ "y" ++ "|" ++ "z") = some (none, "x", some "y") ∧
    extractEntry ("x" ++ "\\|" ++ "y") = some (none, "x" ++ "|" ++ "y", none) ∧
    extractEntry ("[" ++ String.mk ['s'] ++ "]" ++ "x") = some (some 's', "x", none) :=
  extractEntry_spec "x" "y" "z" 's' (by decide) (by decide) (by decide) (by decide)
    (by decide) (by decide) (by decide) (by decide) (by decide)
    (by intro x h; simp at h; subst h; decide)

end SimpleTermMenu
